import Mathlib

/-! Verification of the Certificate Transparency log front-end of this
repository (the RFC 6962 HTTP handler layer over a Trillian Merkle log
backend).  The repository ships the handler test suite
(examples/ct/handlers_test.go); the handler implementation itself is
modelled here from the natural-language specification, with its concrete
behaviour pinned by the expectations of that test suite.  Bytes are
modelled as natural numbers below 256, byte strings as lists.
-/

/-! Section: TLS wire primitives (spec section 6: big-endian explicit length prefixes) -/

/-- Modelled from the spec: big-endian 16-bit integer as two bytes. -/
def u16be (n : Nat) : List Nat := [n / 256 % 256, n % 256]

/-- Modelled from the spec: big-endian 24-bit integer as three bytes. -/
def u24be (n : Nat) : List Nat := [n / 65536 % 256, n / 256 % 256, n % 256]

/-- Modelled from the spec: big-endian 64-bit integer as eight bytes. -/
def u64be (n : Nat) : List Nat :=
  [n / 72057594037927936 % 256, n / 281474976710656 % 256,
   n / 1099511627776 % 256, n / 4294967296 % 256,
   n / 16777216 % 256, n / 65536 % 256, n / 256 % 256, n % 256]

/-- Modelled from the spec: hash algorithm identifier for SHA-256 inside
a DigitallySigned structure. -/
def hashAlgoSHA256 : Nat := 4

/-- Modelled from the spec: signature algorithm identifier for ECDSA inside
a DigitallySigned structure. -/
def sigAlgoECDSA : Nat := 3

/-- Modelled from the spec: a TLS DigitallySigned structure, carrying the
advertised hash and signature algorithms and the raw signature bytes. -/
structure DigitallySigned where
  hashAlgo : Nat
  sigAlgo : Nat
  sig : List Nat
deriving DecidableEq

/-- Modelled from the spec: TLS serialization of DigitallySigned: one byte
of hash algorithm, one byte of signature algorithm, then the signature with
a 16-bit length prefix. -/
def serializeDigitallySigned (ds : DigitallySigned) : List Nat :=
  [ds.hashAlgo, ds.sigAlgo] ++ u16be ds.sig.length ++ ds.sig

/-- Modelled from the spec: the data signed for an SCT over an X.509
certificate submission: version V1 (0), signature_type
certificate_timestamp (0), 64-bit timestamp in milliseconds, entry_type
x509_entry (0), the leaf certificate DER with a 24-bit length prefix, and
an empty extensions block with a 16-bit length prefix. -/
def sctSignatureInputX509 (tsMillis : Nat) (leafDER : List Nat) : List Nat :=
  [0, 0] ++ u64be tsMillis ++ u16be 0 ++ u24be leafDER.length ++ leafDER ++ u16be 0

/-- Modelled from the spec: the serialized MerkleTreeLeaf for an X.509
submission: version V1 (0), leaf_type timestamped_entry (0), then the
TimestampedEntry with 64-bit timestamp, entry_type x509_entry (0), the
leaf certificate DER with a 24-bit length prefix and empty extensions. -/
def merkleTreeLeafX509 (tsMillis : Nat) (leafDER : List Nat) : List Nat :=
  [0, 0] ++ u64be tsMillis ++ u16be 0 ++ u24be leafDER.length ++ leafDER ++ u16be 0

/-- Modelled from the spec: the extra_data for an x509_entry leaf: a TLS
list of ASN.1Cert (each with a 24-bit length prefix) holding the chain
certificates after the leaf, the whole list under a 24-bit length prefix. -/
def extraDataX509 (chainAfterLeaf : List (List Nat)) : List Nat :=
  let body := (chainAfterLeaf.map (fun c => u24be c.length ++ c)).flatten
  u24be body.length ++ body

/-- Modelled from the spec: the data signed for a Signed Tree Head:
version V1 (0), signature_type tree_hash (1), 64-bit timestamp in
milliseconds (two's complement when negative, as a 64-bit conversion),
64-bit tree size, and the 32-byte root hash. -/
def sthSignatureInput (tsMillis : Int) (treeSize : Nat) (rootHash : List Nat) : List Nat :=
  [0, 1] ++ u64be (tsMillis.emod 18446744073709551616).toNat ++ u64be treeSize ++ rootHash

/-! Section: Time source (a frozen clock in the tests: 2016-07-22T11:01:13Z) -/

/-- Modelled from the spec: proleptic Gregorian leap year rule used by the
time library converting civil time to Unix time. -/
def isLeapYear (y : Nat) : Bool := (y % 4 == 0 && y % 100 != 0) || y % 400 == 0

/-- Modelled from the spec: number of leap years in the range from year 1
to year y inclusive. -/
def leapsUpTo (y : Nat) : Nat := y / 4 - y / 100 + y / 400

/-- Modelled from the spec: days from the Unix epoch to January 1 of the
given year. -/
def daysBeforeYear (y : Nat) : Nat :=
  365 * (y - 1970) + (leapsUpTo (y - 1) - leapsUpTo 1969)

/-- Modelled from the spec: month lengths for a given leap-year flag. -/
def monthDays (leap : Bool) : List Nat :=
  [31, if leap then 29 else 28, 31, 30, 31, 30, 31, 31, 30, 31, 30, 31]

/-- Modelled from the spec: days from January 1 to the first day of the
given month (1-based). -/
def daysBeforeMonth (leap : Bool) (m : Nat) : Nat :=
  ((monthDays leap).take (m - 1)).sum

/-- Modelled from the spec: milliseconds since the Unix epoch of a UTC
civil time, as the time source and the SCT timestamp computation use. -/
def toUnixMillis (y mo d h mi s : Nat) : Nat :=
  ((((daysBeforeYear y + daysBeforeMonth (isLeapYear y) mo + (d - 1)) * 24 + h) * 60 + mi)
      * 60 + s) * 1000

/-- The frozen test clock 2016-07-22T11:01:13Z, in Unix milliseconds. -/
def fakeTimeMillis : Nat := toUnixMillis 2016 7 22 11 1 13


/-! Section: Request parameter parsing -/

/-- Modelled from the spec: decimal digit accumulator for parameter
parsing; fails on any non-digit character. -/
def parseDigitsAux : List Char → Nat → Option Nat
  | [], acc => some acc
  | c :: rest, acc =>
    if c.isDigit then parseDigitsAux rest (acc * 10 + (c.toNat - 48)) else none

/-- Modelled from the spec: a non-empty all-digit character list as a
natural number. -/
def parseDecimalNat (cs : List Char) : Option Nat :=
  match cs with
  | [] => none
  | _ => parseDigitsAux cs 0

/-- Modelled from the spec: decimal integer parsing of a query parameter,
with an optional leading minus sign; an empty or non-numeric string is
rejected (a missing HTTP form value reads as the empty string). -/
def parseIntStr (str : String) : Option Int :=
  match str.data with
  | [] => none
  | '-' :: rest => (parseDecimalNat rest).map (fun n => -(n : Int))
  | cs => (parseDecimalNat cs).map (fun n => (n : Int))


/-- Modelled from the spec: value of one base64 character; both the
standard and the URL-safe alphabets are accepted. -/
def b64Val (c : Char) : Option Nat :=
  if 'A' ≤ c ∧ c ≤ 'Z' then some (c.toNat - 65)
  else if 'a' ≤ c ∧ c ≤ 'z' then some (c.toNat - 97 + 26)
  else if '0' ≤ c ∧ c ≤ '9' then some (c.toNat - 48 + 52)
  else if c = '+' ∨ c = '-' then some 62
  else if c = '/' ∨ c = '_' then some 63
  else none

/-- Modelled from the spec: base64 decoding of four-character groups with
trailing padding; any other shape is a decoding error. -/
def b64DecodeGroups : List Char → Option (List Nat)
  | [] => some []
  | c1 :: c2 :: c3 :: c4 :: rest =>
    match b64Val c1, b64Val c2 with
    | some v1, some v2 =>
      if c4 = '=' then
        if rest.isEmpty then
          if c3 = '=' then some [(v1 * 4 + v2 / 16) % 256]
          else
            match b64Val c3 with
            | some v3 => some [(v1 * 4 + v2 / 16) % 256, (v2 % 16 * 16 + v3 / 4) % 256]
            | none => none
        else none
      else
        match b64Val c3, b64Val c4 with
        | some v3, some v4 =>
          match b64DecodeGroups rest with
          | some tail =>
            some ((v1 * 4 + v2 / 16) % 256 :: (v2 % 16 * 16 + v3 / 4) % 256 ::
              (v3 % 4 * 64 + v4) % 256 :: tail)
          | none => none
        | _, _ => none
    | _, _ => none
  | _ => none

/-- Modelled from the spec: base64 decoding of a query parameter (standard
or URL-safe alphabet, padded). -/
def base64Decode (s : String) : Option (List Nat) := b64DecodeGroups s.data


/-! Section: Backend data model (Trillian RPC messages, per spec sections 3 and 6) -/

/-- Modelled from the spec: backend response status codes. -/
inductive TrillianStatusCode
  | OK
  | ERROR
deriving DecidableEq

/-- Modelled from the spec: a Trillian log leaf as queued and returned by
the backend. -/
structure LogLeaf where
  leafIndex : Int
  leafValueHash : List Nat
  leafValue : List Nat
  extraData : List Nat
  merkleLeafHash : List Nat
deriving DecidableEq

/-- Modelled from the spec: the backend's signed log root with timestamp
in nanoseconds, a 64-bit tree size and the root hash bytes. -/
structure SignedLogRoot where
  timestampNanos : Int
  treeSize : Int
  rootHash : List Nat
deriving DecidableEq

/-- Modelled from the spec: one node of a backend proof, carrying a hash. -/
structure TrillianNode where
  nodeHash : List Nat
deriving DecidableEq

/-- Modelled from the spec: a backend proof: a leaf index and an ordered
sequence of node hashes. -/
structure TrillianProof where
  leafIndex : Int
  proofNode : List TrillianNode
deriving DecidableEq

/-- Modelled from the spec: the six backend RPC requests issued by the
front-end handlers, each carrying the log id. -/
inductive RpcRequest
  | queueLeaves (logId : Nat) (leaves : List LogLeaf)
  | getLatestSignedLogRoot (logId : Nat)
  | getLeavesByIndex (logId : Nat) (leafIndex : List Int)
  | getInclusionProofByHash (logId : Nat) (leafHash : List Nat) (treeSize : Int)
  | getConsistencyProof (logId : Nat) (first second : Int)
  | getEntryAndProof (logId : Nat) (leafIndex treeSize : Int)
deriving DecidableEq

/-- Modelled from the spec: an outbound RPC together with the deadline
carried by its request context (none models a context with no deadline). -/
structure RpcCall where
  ctxDeadline : Option Nat
  req : RpcRequest
deriving DecidableEq

/-- Modelled from the spec: per-log immutable configuration: log id, the
key manager's raw public key, the per-instance RPC deadline duration and
the frozen reading of the injected time source, both in milliseconds. -/
structure LogContext where
  logId : Nat
  pubKey : List Nat
  deadlineMillis : Nat
  nowMillis : Nat
deriving DecidableEq

/-- Modelled from the spec: the adapter attaches to every outbound RPC a
context whose deadline is the time source's current time plus the
configured per-instance deadline. -/
def mkCall (ctx : LogContext) (r : RpcRequest) : RpcCall :=
  ⟨some (ctx.nowMillis + ctx.deadlineMillis), r⟩

/-- Modelled from the spec: a handler error: the HTTP status code and the
message written as the response body. -/
structure CtError where
  statusCode : Nat
  msg : String
deriving DecidableEq

/-- Modelled from the spec: HTTP status of a handler outcome; a successful
outcome is a 200. -/
def httpStatus {α : Type} : Except CtError α → Nat
  | .error e => e.statusCode
  | .ok _ => 200

/-- Modelled from the spec: the add-chain success JSON body: sct_version,
log id, timestamp in milliseconds, extensions and the serialized
DigitallySigned signature. -/
structure CtSctResponse where
  sctVersion : Nat
  id : List Nat
  timestamp : Nat
  extensions : List Nat
  signature : List Nat
deriving DecidableEq

/-- Modelled from the spec: the get-sth success JSON body. -/
structure GetSTHResponse where
  treeSize : Nat
  timestamp : Int
  sha256RootHash : List Nat
  treeHeadSignature : List Nat
deriving DecidableEq

/-- Modelled from the spec: the get-entries success JSON body: for each
leaf, its leaf_input and extra_data passed through unmodified. -/
structure GetEntriesResponse where
  entries : List (List Nat × List Nat)
deriving DecidableEq

/-- Modelled from the spec: the get-proof-by-hash success JSON body. -/
structure GetProofByHashResponse where
  leafIndex : Int
  auditPath : List (List Nat)
deriving DecidableEq

/-- Modelled from the spec: the get-sth-consistency success JSON body. -/
structure GetSTHConsistencyResponse where
  consistency : List (List Nat)
deriving DecidableEq

/-- Modelled from the spec: the get-entry-and-proof success JSON body. -/
structure GetEntryAndProofResponse where
  leafInput : List Nat
  extraData : List Nat
  auditPath : List (List Nat)
deriving DecidableEq

/-! Section: Leaf range validation (get-entries) -/

/-- Modelled from the spec: the ordering of backend leaves by leaf index
used when sorting a get-entries response. -/
def leafLe (a b : LogLeaf) : Prop := a.leafIndex ≤ b.leafIndex

instance : DecidableRel leafLe := fun a b => Int.decLe a.leafIndex b.leafIndex

instance : IsTotal LogLeaf leafLe := ⟨fun a b => Int.le_total a.leafIndex b.leafIndex⟩

instance : IsTrans LogLeaf leafLe := ⟨fun _ _ _ => Int.le_trans⟩

/-- Modelled from the spec: checks that the leaf indices of an (already
sorted) leaf sequence are exactly s, s+1, s+2, ... -/
def checkContig (s : Int) : List LogLeaf → Bool
  | [] => true
  | l :: rest => (l.leafIndex == s) && checkContig (s + 1) rest

/-- Modelled from the spec: post-processing of a get-entries backend
response for the requested range: more leaves than the range size is "too
many leaves"; after sorting by leaf index the indices must be the
contiguous sequence starting at the range start (the backend may truncate,
so fewer leaves are accepted), else "unexpected leaf index". -/
def sortLeafRange (leaves : List LogLeaf) (start e : Int) : Except String (List LogLeaf) :=
  if (e - start + 1).toNat < leaves.length then .error "too many leaves"
  else
    let sorted := List.insertionSort leafLe leaves
    if checkContig start sorted then .ok sorted else .error "unexpected leaf index"

/-- Modelled from the spec: the contiguous index list [s .. e] sent to the
backend in a GetLeavesByIndex request. -/
def buildIndicesForRange (start e : Int) : List Int :=
  (List.range (e - start + 1).toNat).map (fun (i : Nat) => start + (i : Int))

/-- Modelled from the spec: the open range-size policy: the reference
rejects ranges larger than a fixed cap at validation time. -/
def maxGetEntriesAllowed : Int := 1000

/-- Modelled from the spec: validation of an audit proof received from the
backend: every node hash must be non-empty, and on success the audit path
is the ordered list of the node hashes. -/
def auditPathFromProof (p : TrillianProof) : Option (List (List Nat)) :=
  if p.proofNode.all (fun n => !n.nodeHash.isEmpty) then
    some (p.proofNode.map TrillianNode.nodeHash)
  else none

/-! Section: HTTP handlers, modelled from the spec.

Each handler takes the request inputs and the backend's reply to the
single RPC the endpoint may issue, and yields the RPC it issued (none if
validation failed before any backend call) together with the HTTP
outcome.  Capabilities (SHA-256, the key manager's signer, the chain
validator) are function parameters, as the spec injects them. -/

/-- Modelled from the spec: add-chain: validate the submitted chain
against the accepted roots (the validator capability returns the
canonical chain on success), build the MerkleTreeLeaf and sign the SCT at
the current time, queue the leaf via QueueLeaves, and return the SCT; a
validation failure is a 400 before any RPC, a signer failure a 500 before
any RPC, and a non-OK backend status a 500. -/
def addChain (ctx : LogContext) (sha : List Nat → List Nat)
    (sign : List Nat → Except String (List Nat))
    (validate : List (List Nat) → Option (List (List Nat)))
    (st : TrillianStatusCode) (chain : List (List Nat)) :
    Option RpcCall × Except CtError CtSctResponse :=
  match validate chain with
  | none => (none, .error ⟨400, "failed to validate certificate chain"⟩)
  | some [] => (none, .error ⟨400, "failed to validate certificate chain"⟩)
  | some (leafCert :: rest) =>
    match sign (sctSignatureInputX509 ctx.nowMillis leafCert) with
    | .error m => (none, .error ⟨500, m⟩)
    | .ok sigBytes =>
      let leafValue := merkleTreeLeafX509 ctx.nowMillis leafCert
      let logLeaf : LogLeaf := ⟨0, sha leafValue, leafValue, extraDataX509 rest, []⟩
      let call := mkCall ctx (.queueLeaves ctx.logId [logLeaf])
      match st with
      | .ERROR => (some call, .error ⟨500, "backend rpc failed"⟩)
      | .OK =>
        (some call,
         .ok ⟨0, sha ctx.pubKey, ctx.nowMillis, [],
           serializeDigitallySigned ⟨hashAlgoSHA256, sigAlgoECDSA, sigBytes⟩⟩)

/-- Modelled from the spec: get-sth: fetch the latest signed log root,
reject a negative tree size ("bad tree size") and a root hash that is not
32 bytes ("bad hash size") as 500s, convert the timestamp from nanoseconds
to milliseconds by integer division truncating toward zero, sign the tree
head, and echo tree size and root hash. -/
def getSTH (ctx : LogContext)
    (backend : Except String (TrillianStatusCode × SignedLogRoot))
    (sign : List Nat → Except String (List Nat)) :
    Option RpcCall × Except CtError GetSTHResponse :=
  (some (mkCall ctx (.getLatestSignedLogRoot ctx.logId)),
   match backend with
   | .error m => .error ⟨500, "request failed: " ++ m⟩
   | .ok (st, slr) =>
     match st with
     | .ERROR => .error ⟨500, "backend rpc failed"⟩
     | .OK =>
       if slr.treeSize < 0 then .error ⟨500, "bad tree size"⟩
       else if slr.rootHash.length ≠ 32 then .error ⟨500, "bad hash size"⟩
       else
         match sign (sthSignatureInput (slr.timestampNanos.tdiv 1000000)
             slr.treeSize.toNat slr.rootHash) with
         | .error m => .error ⟨500, m⟩
         | .ok sigBytes =>
           .ok ⟨slr.treeSize.toNat, slr.timestampNanos.tdiv 1000000, slr.rootHash,
             serializeDigitallySigned ⟨hashAlgoSHA256, sigAlgoECDSA, sigBytes⟩⟩)

/-- Modelled from the spec: get-entries range validation: start and end
must parse as non-negative integers with end at least start, and the range
size must not exceed the configured cap; any violation is a 400. -/
def parseGetEntriesRange (startP endP : String) : Except CtError (Int × Int) :=
  match parseIntStr startP, parseIntStr endP with
  | some s, some e =>
    if s < 0 ∨ e < 0 then .error ⟨400, "parameters must be non-negative"⟩
    else if e < s then .error ⟨400, "invalid range"⟩
    else if maxGetEntriesAllowed < e - s + 1 then .error ⟨400, "range too large"⟩
    else .ok (s, e)
  | _, _ => .error ⟨400, "parameters must be numeric"⟩

/-- Modelled from the spec: get-entries: validate the range, fetch the
leaves for [start .. end], post-validate them with sortLeafRange, and pass
each leaf's value and extra data through unmodified. -/
def getEntries (ctx : LogContext) (startP endP : String)
    (backend : Except String (TrillianStatusCode × List LogLeaf)) :
    Option RpcCall × Except CtError GetEntriesResponse :=
  match parseGetEntriesRange startP endP with
  | .error err => (none, .error err)
  | .ok (s, e) =>
    (some (mkCall ctx (.getLeavesByIndex ctx.logId (buildIndicesForRange s e))),
     match backend with
     | .error m => .error ⟨500, m⟩
     | .ok (st, leaves) =>
       match st with
       | .ERROR => .error ⟨500, "backend rpc failed"⟩
       | .OK =>
         match sortLeafRange leaves s e with
         | .error m => .error ⟨500, m⟩
         | .ok sorted => .ok ⟨sorted.map (fun l => (l.leafValue, l.extraData))⟩)

/-- Modelled from the spec: get-proof-by-hash parameter validation: the
hash parameter must be present (an absent HTTP form value reads as the
empty string), non-empty and base64-decodable, and tree_size must parse
and be positive; any violation is a 400 before any backend call. -/
def parseGetProofByHashParams (hashP tsP : String) : Except CtError (List Nat × Int) :=
  if hashP.isEmpty then .error ⟨400, "missing hash parameter"⟩
  else
    match base64Decode hashP with
    | none => .error ⟨400, "invalid base64 hash"⟩
    | some hb =>
      match parseIntStr tsP with
      | none => .error ⟨400, "missing or invalid tree_size"⟩
      | some ts => if ts < 1 then .error ⟨400, "invalid tree_size"⟩ else .ok (hb, ts)

/-- Modelled from the spec: get-proof-by-hash: validate the parameters,
fetch the inclusion proofs, use only the first returned proof, reject a
proof with an empty node hash as 500 "invalid proof", and respond with the
first proof's leaf index and audit path. -/
def getProofByHash (ctx : LogContext) (hashP tsP : String)
    (backend : Except String (TrillianStatusCode × List TrillianProof)) :
    Option RpcCall × Except CtError GetProofByHashResponse :=
  match parseGetProofByHashParams hashP tsP with
  | .error err => (none, .error err)
  | .ok (hb, ts) =>
    (some (mkCall ctx (.getInclusionProofByHash ctx.logId hb ts)),
     match backend with
     | .error m => .error ⟨500, m⟩
     | .ok (st, proofs) =>
       match st with
       | .ERROR => .error ⟨500, "backend rpc failed"⟩
       | .OK =>
         match proofs with
         | [] => .error ⟨500, "bad backend response"⟩
         | p :: _ =>
           match auditPathFromProof p with
           | none => .error ⟨500, "invalid proof"⟩
           | some path => .ok ⟨p.leafIndex, path⟩)

/-- Modelled from the spec: get-sth-consistency parameter validation: both
first and second must be present and parse as non-negative integers with
first strictly below second; any violation is a 400. -/
def parseConsistencyParams (firstP secondP : String) : Except CtError (Int × Int) :=
  match parseIntStr firstP, parseIntStr secondP with
  | some f, some s =>
    if f < 0 ∨ s < 0 then .error ⟨400, "parameters must be non-negative"⟩
    else if s ≤ f then .error ⟨400, "invalid first and second values"⟩
    else .ok (f, s)
  | _, _ => .error ⟨400, "parameters must be numeric"⟩

/-- Modelled from the spec: get-sth-consistency: validate the parameters,
fetch the consistency proof, reject a proof with an empty node hash as 500
"invalid proof", and respond with the ordered audit hashes. -/
def getSTHConsistency (ctx : LogContext) (firstP secondP : String)
    (backend : Except String (TrillianStatusCode × TrillianProof)) :
    Option RpcCall × Except CtError GetSTHConsistencyResponse :=
  match parseConsistencyParams firstP secondP with
  | .error err => (none, .error err)
  | .ok (f, s) =>
    (some (mkCall ctx (.getConsistencyProof ctx.logId f s)),
     match backend with
     | .error m => .error ⟨500, m⟩
     | .ok (st, p) =>
       match st with
       | .ERROR => .error ⟨500, "backend rpc failed"⟩
       | .OK =>
         match auditPathFromProof p with
         | none => .error ⟨500, "invalid proof"⟩
         | some path => .ok ⟨path⟩)

/-- Modelled from the spec: get-entry-and-proof parameter validation:
leaf_index non-negative, tree_size positive, leaf_index below tree_size. -/
def parseGetEntryAndProofParams (liP tsP : String) : Except CtError (Int × Int) :=
  match parseIntStr liP, parseIntStr tsP with
  | some li, some ts =>
    if li < 0 ∨ ts < 1 then .error ⟨400, "parameters must be valid"⟩
    else if ts ≤ li then .error ⟨400, "leaf_index out of range"⟩
    else .ok (li, ts)
  | _, _ => .error ⟨400, "parameters must be numeric"⟩

/-- Modelled from the spec: get-entry-and-proof: validate the parameters,
fetch the entry and proof, reject a response missing either the leaf or
the proof as a 500, and respond with the leaf input, extra data and audit
path. -/
def getEntryAndProof (ctx : LogContext) (liP tsP : String)
    (backend : Except String (TrillianStatusCode × Option TrillianProof × Option LogLeaf)) :
    Option RpcCall × Except CtError GetEntryAndProofResponse :=
  match parseGetEntryAndProofParams liP tsP with
  | .error err => (none, .error err)
  | .ok (li, ts) =>
    (some (mkCall ctx (.getEntryAndProof ctx.logId li ts)),
     match backend with
     | .error m => .error ⟨500, m⟩
     | .ok (st, pOpt, lOpt) =>
       match st with
       | .ERROR => .error ⟨500, "backend rpc failed"⟩
       | .OK =>
         match pOpt, lOpt with
         | some p, some leaf =>
           .ok ⟨leaf.leafValue, leaf.extraData, p.proofNode.map TrillianNode.nodeHash⟩
         | _, _ => .error ⟨500, "bad backend response"⟩)

/-! Section: Concrete inputs mirroring the handler test suite -/

/-- Concrete log context mirroring the test setup: log id 0x42, key
manager public key "key", a 500 ms deadline and the frozen clock. -/
def demoCtx : LogContext := ⟨66, [107, 101, 121], 500, fakeTimeMillis⟩

/-- A backend leaf carrying only a leaf index. -/
def mkLeaf (i : Int) : LogLeaf := ⟨i, [], [], [], []⟩

/-- Proof node with hash bytes "abcdef". -/
def nodeA : TrillianNode := ⟨[97, 98, 99, 100, 101, 102]⟩

/-- Proof node with hash bytes "ghijkl". -/
def nodeG : TrillianNode := ⟨[103, 104, 105, 106, 107, 108]⟩

/-- Proof node with hash bytes "mnopqr". -/
def nodeM : TrillianNode := ⟨[109, 110, 111, 112, 113, 114]⟩

/-- The inclusion proof the tests expect back: leaf index 2 with the three
node hashes above. -/
def demoProof : TrillianProof := ⟨2, [nodeA, nodeG, nodeM]⟩

/-- The second backend proof of the multi-proof test case, to be ignored. -/
def demoSecondProof : TrillianProof := ⟨2, [nodeG]⟩

/-- A signer capability returning the bytes of "signed", as the mocked
signer of the tests does. -/
def demoSign : List Nat → Except String (List Nat) :=
  fun _ => .ok [115, 105, 103, 110, 101, 100]

/-- A stand-in hash capability (the SHA-256 of the model is an injected
function, so any function witnesses the theorems). -/
def demoSha : List Nat → List Nat := fun l => [l.length % 256]

/-- A chain validator capability accepting every submission as-is. -/
def demoValidate : List (List Nat) → Option (List (List Nat)) := fun c => some c

/-- A two-certificate submitted chain. -/
def demoChain : List (List Nat) := [[1, 2, 3], [4, 5, 6]]

/-- The 32-byte root hash "abcd" repeated, as in the get-sth test. -/
def demoRootHash : List Nat :=
  [97, 98, 99, 100, 97, 98, 99, 100, 97, 98, 99, 100, 97, 98, 99, 100,
   97, 98, 99, 100, 97, 98, 99, 100, 97, 98, 99, 100, 97, 98, 99, 100]

/-- The backend signed log root of the successful get-sth test: timestamp
12345000000 ns, tree size 25, the 32-byte hash. -/
def demoSLR : SignedLogRoot := ⟨12345000000, 25, demoRootHash⟩

/-! Section: Contiguity of sorted leaf ranges -/

/-- The contiguous integer sequence s, s+1, ..., s+n-1. -/
def contigRange (s : Int) (n : Nat) : List Int :=
  (List.range n).map (fun (i : Nat) => s + (i : Int))

theorem contigRange_succ (s : Int) (n : Nat) :
    contigRange s (n + 1) = s :: contigRange (s + 1) n := by
  unfold contigRange
  rw [List.range_succ_eq_map, List.map_cons, List.map_map]
  congr 1
  · simp
  · exact List.map_congr_left (fun a _ => by simp [Function.comp]; omega)

theorem checkContig_iff (l : List LogLeaf) : ∀ s : Int,
    checkContig s l = true ↔ l.map LogLeaf.leafIndex = contigRange s l.length := by
  induction l with
  | nil => intro s; simp [checkContig, contigRange]
  | cons a t ih =>
    intro s
    simp [checkContig, List.length_cons, contigRange_succ, ih]

theorem sorted_contigRange (s : Int) (n : Nat) :
    List.Sorted (· ≤ ·) (contigRange s n) := by
  unfold contigRange
  exact List.Pairwise.map _ (fun a b (h : a < b) => by omega) (List.sorted_lt_range n)

theorem mapIndex_insertionSort (leaves : List LogLeaf) :
    (List.insertionSort leafLe leaves).map LogLeaf.leafIndex =
      List.insertionSort (· ≤ ·) (leaves.map LogLeaf.leafIndex) :=
  List.map_insertionSort leafLe (· ≤ ·) LogLeaf.leafIndex leaves (fun _ _ _ _ => Iff.rfl)

theorem insertionSort_eq_contig {xs : List Int} {s : Int} {n : Nat}
    (h : xs.Perm (contigRange s n)) :
    List.insertionSort (· ≤ ·) xs = contigRange s n :=
  List.eq_of_perm_of_sorted ((List.perm_insertionSort _ xs).trans h)
    (List.sorted_insertionSort _ xs) (sorted_contigRange s n)

/-- C3 counterexample: the backend response with leaf indices [5..10] for
the requested range [5, 12] is accepted by sortLeafRange even though the
sorted index sequence differs from the full requested sequence [5..12]
(truncation), so "accepts only if the index sequence equals
[start, ..., end]" fails as stated. -/
theorem sortLeafRange_full_range_counterexample :
    sortLeafRange ([5, 6, 7, 8, 9, 10].map mkLeaf) 5 12
      = .ok ([5, 6, 7, 8, 9, 10].map mkLeaf)
    ∧ (([5, 6, 7, 8, 9, 10].map mkLeaf).map LogLeaf.leafIndex
        = [5, 6, 7, 8, 9, 10])
    ∧ ([5, 6, 7, 8, 9, 10] : List Int) ≠ buildIndicesForRange 5 12 := by
  refine ⟨rfl, rfl, by decide⟩

/-- C3 (amended): for a get-entries backend response for range [start, e]:
more than e-start+1 leaves yields "too many leaves"; otherwise the
response is accepted exactly when the multiset of returned leaf indices is
the contiguous prefix start, start+1, ..., start+n-1 of the requested
range (n the number of returned leaves, so a truncated response is
acceptable), in which case the leaves sorted by index are returned; any
missing or duplicated index yields "unexpected leaf index". -/
theorem sortLeafRange_spec (leaves : List LogLeaf) (s e : Int) :
    ((e - s + 1).toNat < leaves.length →
      sortLeafRange leaves s e = .error "too many leaves")
    ∧ (leaves.length ≤ (e - s + 1).toNat →
        ((leaves.map LogLeaf.leafIndex).Perm (contigRange s leaves.length) →
          sortLeafRange leaves s e = .ok (List.insertionSort leafLe leaves)
          ∧ (List.insertionSort leafLe leaves).map LogLeaf.leafIndex
              = contigRange s leaves.length)
        ∧ (¬ (leaves.map LogLeaf.leafIndex).Perm (contigRange s leaves.length) →
          sortLeafRange leaves s e = .error "unexpected leaf index")) := by
  refine ⟨fun h => ?_, fun hlen => ⟨fun hperm => ?_, fun hnp => ?_⟩⟩
  · simp [sortLeafRange, h]
  · have hmap : (List.insertionSort leafLe leaves).map LogLeaf.leafIndex
        = contigRange s leaves.length := by
      rw [mapIndex_insertionSort]; exact insertionSort_eq_contig hperm
    have hchk : checkContig s (List.insertionSort leafLe leaves) = true := by
      rw [checkContig_iff, List.length_insertionSort, hmap]
    refine ⟨?_, hmap⟩
    simp [sortLeafRange, Nat.not_lt.mpr hlen, hchk]
  · have hchk : checkContig s (List.insertionSort leafLe leaves) = false := by
      cases hc : checkContig s (List.insertionSort leafLe leaves) with
      | false => rfl
      | true =>
        exfalso
        rw [checkContig_iff, List.length_insertionSort] at hc
        exact hnp (((List.perm_insertionSort leafLe leaves).map
          LogLeaf.leafIndex).symm.trans (hc ▸ List.Perm.refl _))
    simp [sortLeafRange, Nat.not_lt.mpr hlen, hchk]

/-- C3 witness: the permuted truncated response [7, 6, 8, 9, 10, 5] for
range [5, 12] is accepted and comes back sorted as [5..10]. -/
theorem sortLeafRange_spec_witness :
    sortLeafRange ([7, 6, 8, 9, 10, 5].map mkLeaf) 5 12
      = .ok (List.insertionSort leafLe ([7, 6, 8, 9, 10, 5].map mkLeaf))
    ∧ (List.insertionSort leafLe ([7, 6, 8, 9, 10, 5].map mkLeaf)).map LogLeaf.leafIndex
      = contigRange 5 6 :=
  ((sortLeafRange_spec ([7, 6, 8, 9, 10, 5].map mkLeaf) 5 12).2
    (by decide)).1 (by decide)

/-! Section: Audit path validation lemmas -/

theorem auditPath_none_of_empty (p : TrillianProof)
    (h : ∃ n ∈ p.proofNode, n.nodeHash = []) : auditPathFromProof p = none := by
  unfold auditPathFromProof
  rw [if_neg]
  intro hall
  rw [List.all_eq_true] at hall
  obtain ⟨n, hn, he⟩ := h
  have := hall n hn
  rw [he] at this
  simp at this

theorem auditPath_some_of_nonempty (p : TrillianProof)
    (h : ∀ n ∈ p.proofNode, n.nodeHash ≠ []) :
    auditPathFromProof p = some (p.proofNode.map TrillianNode.nodeHash) := by
  unfold auditPathFromProof
  rw [if_pos]
  rw [List.all_eq_true]
  intro n hn
  cases hl : n.nodeHash with
  | nil => exact absurd hl (h n hn)
  | cons a t => rfl

/-! Section: Claim C1: SCT determinism under the frozen clock -/

/-- C1: for every add-chain submission whose chain validates against the
accepted roots (the validator capability returns a canonical chain), with
the time source frozen at 2016-07-22T11:01:13Z and the backend QueueLeaves
returning OK, the handler returns HTTP 200 with an SCT whose version is 0,
whose id is the SHA-256 of the key manager's public key, whose timestamp
is exactly 1469185273000 ms, and whose signature is the TLS-serialized
DigitallySigned structure over the SCT signature input. -/
theorem addChain_sct_deterministic (ctx : LogContext) (sha : List Nat → List Nat)
    (sign : List Nat → Except String (List Nat))
    (validate : List (List Nat) → Option (List (List Nat)))
    (chain : List (List Nat)) (leafCert : List Nat) (rest : List (List Nat))
    (sg : List Nat)
    (hval : validate chain = some (leafCert :: rest))
    (hnow : ctx.nowMillis = fakeTimeMillis)
    (hsig : sign (sctSignatureInputX509 ctx.nowMillis leafCert) = .ok sg) :
    httpStatus (addChain ctx sha sign validate .OK chain).2 = 200
    ∧ (addChain ctx sha sign validate .OK chain).2 =
        .ok ⟨0, sha ctx.pubKey, 1469185273000, [],
          serializeDigitallySigned ⟨hashAlgoSHA256, sigAlgoECDSA, sg⟩⟩ := by
  have hmain : (addChain ctx sha sign validate .OK chain).2 =
      .ok ⟨0, sha ctx.pubKey, ctx.nowMillis, [],
        serializeDigitallySigned ⟨hashAlgoSHA256, sigAlgoECDSA, sg⟩⟩ := by
    simp [addChain, hval, hsig]
  constructor
  · rw [hmain]; rfl
  · rw [hmain, hnow, show fakeTimeMillis = 1469185273000 from by decide]

/-- C1 witness: concrete capabilities (identity validator, the mocked
signer returning "signed") on the two-certificate chain. -/
theorem addChain_sct_deterministic_witness :
    httpStatus (addChain demoCtx demoSha demoSign demoValidate .OK demoChain).2 = 200
    ∧ (addChain demoCtx demoSha demoSign demoValidate .OK demoChain).2 =
        .ok ⟨0, demoSha demoCtx.pubKey, 1469185273000, [],
          serializeDigitallySigned
            ⟨hashAlgoSHA256, sigAlgoECDSA, [115, 105, 103, 110, 101, 100]⟩⟩ :=
  addChain_sct_deterministic demoCtx demoSha demoSign demoValidate demoChain
    [1, 2, 3] [[4, 5, 6]] [115, 105, 103, 110, 101, 100] rfl rfl rfl

/-! Section: Claim C2: get-sth validation -/

/-- C2: for every get-sth request with the backend returning OK: a
negative tree size yields 500 "bad tree size"; a root hash that is not 32
bytes yields 500 "bad hash size"; a signer error yields 500 with the
signer's message; otherwise 200 with tree size and root hash echoed and
the timestamp converted from nanoseconds to milliseconds by integer
division truncating toward zero. -/
theorem getSTH_validation (ctx : LogContext) (slr : SignedLogRoot)
    (sign : List Nat → Except String (List Nat)) :
    (slr.treeSize < 0 →
      (getSTH ctx (.ok (.OK, slr)) sign).2 = .error ⟨500, "bad tree size"⟩)
    ∧ (0 ≤ slr.treeSize → slr.rootHash.length ≠ 32 →
      (getSTH ctx (.ok (.OK, slr)) sign).2 = .error ⟨500, "bad hash size"⟩)
    ∧ (∀ m, 0 ≤ slr.treeSize → slr.rootHash.length = 32 →
      sign (sthSignatureInput (slr.timestampNanos.tdiv 1000000)
          slr.treeSize.toNat slr.rootHash) = .error m →
      (getSTH ctx (.ok (.OK, slr)) sign).2 = .error ⟨500, m⟩)
    ∧ (∀ sg, 0 ≤ slr.treeSize → slr.rootHash.length = 32 →
      sign (sthSignatureInput (slr.timestampNanos.tdiv 1000000)
          slr.treeSize.toNat slr.rootHash) = .ok sg →
      (getSTH ctx (.ok (.OK, slr)) sign).2 =
        .ok ⟨slr.treeSize.toNat, slr.timestampNanos.tdiv 1000000, slr.rootHash,
          serializeDigitallySigned ⟨hashAlgoSHA256, sigAlgoECDSA, sg⟩⟩) := by
  refine ⟨fun h => ?_, fun h1 h2 => ?_, fun m h1 h2 hs => ?_, fun sg h1 h2 hs => ?_⟩
  · simp [getSTH, h]
  · simp [getSTH, Int.not_lt.mpr h1, h2]
  · simp [getSTH, Int.not_lt.mpr h1, h2, hs]
  · simp [getSTH, Int.not_lt.mpr h1, h2, hs]

/-- C2 witness: the successful get-sth test case: 12345000000 ns becomes
12345 ms, tree size 25 and the 32-byte root hash are echoed, and the
signature serializes the mocked signer's bytes. -/
theorem getSTH_validation_witness :
    (getSTH demoCtx (.ok (.OK, demoSLR)) demoSign).2 =
      .ok ⟨25, 12345, demoRootHash,
        serializeDigitallySigned
          ⟨hashAlgoSHA256, sigAlgoECDSA, [115, 105, 103, 110, 101, 100]⟩⟩ :=
  (getSTH_validation demoCtx demoSLR demoSign).2.2.2
    [115, 105, 103, 110, 101, 100] (by decide) (by decide) rfl

/-! Section: Shape of each handler's issued RPC -/

theorem addChain_fst (ctx : LogContext) (sha : List Nat → List Nat)
    (sign : List Nat → Except String (List Nat))
    (validate : List (List Nat) → Option (List (List Nat)))
    (st : TrillianStatusCode) (chain : List (List Nat)) :
    (addChain ctx sha sign validate st chain).1 = none
    ∨ ∃ r, (addChain ctx sha sign validate st chain).1 = some (mkCall ctx r) := by
  cases hv : validate chain with
  | none => exact .inl (by simp [addChain, hv])
  | some l =>
    cases l with
    | nil => exact .inl (by simp [addChain, hv])
    | cons lc tl =>
      cases hs : sign (sctSignatureInputX509 ctx.nowMillis lc) with
      | error m => exact .inl (by simp [addChain, hv, hs])
      | ok sg =>
        cases st with
        | ERROR =>
          exact .inr ⟨.queueLeaves ctx.logId
            [⟨0, sha (merkleTreeLeafX509 ctx.nowMillis lc),
              merkleTreeLeafX509 ctx.nowMillis lc, extraDataX509 tl, []⟩],
            by simp [addChain, hv, hs]⟩
        | OK =>
          exact .inr ⟨.queueLeaves ctx.logId
            [⟨0, sha (merkleTreeLeafX509 ctx.nowMillis lc),
              merkleTreeLeafX509 ctx.nowMillis lc, extraDataX509 tl, []⟩],
            by simp [addChain, hv, hs]⟩

theorem getSTH_fst (ctx : LogContext)
    (backend : Except String (TrillianStatusCode × SignedLogRoot))
    (sign : List Nat → Except String (List Nat)) :
    ∃ r, (getSTH ctx backend sign).1 = some (mkCall ctx r) :=
  ⟨_, rfl⟩

theorem getEntries_fst (ctx : LogContext) (startP endP : String)
    (backend : Except String (TrillianStatusCode × List LogLeaf)) :
    (getEntries ctx startP endP backend).1 = none
    ∨ ∃ r, (getEntries ctx startP endP backend).1 = some (mkCall ctx r) := by
  unfold getEntries
  cases parseGetEntriesRange startP endP with
  | error err => exact .inl rfl
  | ok p =>
    obtain ⟨s, e⟩ := p
    exact .inr ⟨_, rfl⟩

theorem getProofByHash_fst (ctx : LogContext) (hashP tsP : String)
    (backend : Except String (TrillianStatusCode × List TrillianProof)) :
    (getProofByHash ctx hashP tsP backend).1 = none
    ∨ ∃ r, (getProofByHash ctx hashP tsP backend).1 = some (mkCall ctx r) := by
  unfold getProofByHash
  cases parseGetProofByHashParams hashP tsP with
  | error err => exact .inl rfl
  | ok p =>
    obtain ⟨hb, ts⟩ := p
    exact .inr ⟨_, rfl⟩

theorem getSTHConsistency_fst (ctx : LogContext) (firstP secondP : String)
    (backend : Except String (TrillianStatusCode × TrillianProof)) :
    (getSTHConsistency ctx firstP secondP backend).1 = none
    ∨ ∃ r, (getSTHConsistency ctx firstP secondP backend).1 = some (mkCall ctx r) := by
  unfold getSTHConsistency
  cases parseConsistencyParams firstP secondP with
  | error err => exact .inl rfl
  | ok p =>
    obtain ⟨f, s⟩ := p
    exact .inr ⟨_, rfl⟩

theorem getEntryAndProof_fst (ctx : LogContext) (liP tsP : String)
    (backend : Except String (TrillianStatusCode × Option TrillianProof × Option LogLeaf)) :
    (getEntryAndProof ctx liP tsP backend).1 = none
    ∨ ∃ r, (getEntryAndProof ctx liP tsP backend).1 = some (mkCall ctx r) := by
  unfold getEntryAndProof
  cases parseGetEntryAndProofParams liP tsP with
  | error err => exact .inl rfl
  | ok p =>
    obtain ⟨li, ts⟩ := p
    exact .inr ⟨_, rfl⟩

/-! Section: Claim C4: every outbound RPC carries the deadline now + configured duration -/

/-- C4: every backend RPC issued by any of the six handlers carries a
request context whose deadline is the time source's current reading plus
the configured per-instance deadline duration. -/
theorem backend_rpc_deadline (ctx : LogContext) :
    (∀ sha sign validate st chain c,
      (addChain ctx sha sign validate st chain).1 = some c →
      c.ctxDeadline = some (ctx.nowMillis + ctx.deadlineMillis))
    ∧ (∀ backend sign c, (getSTH ctx backend sign).1 = some c →
      c.ctxDeadline = some (ctx.nowMillis + ctx.deadlineMillis))
    ∧ (∀ startP endP backend c, (getEntries ctx startP endP backend).1 = some c →
      c.ctxDeadline = some (ctx.nowMillis + ctx.deadlineMillis))
    ∧ (∀ hashP tsP backend c, (getProofByHash ctx hashP tsP backend).1 = some c →
      c.ctxDeadline = some (ctx.nowMillis + ctx.deadlineMillis))
    ∧ (∀ firstP secondP backend c,
      (getSTHConsistency ctx firstP secondP backend).1 = some c →
      c.ctxDeadline = some (ctx.nowMillis + ctx.deadlineMillis))
    ∧ (∀ liP tsP backend c, (getEntryAndProof ctx liP tsP backend).1 = some c →
      c.ctxDeadline = some (ctx.nowMillis + ctx.deadlineMillis)) := by
  refine ⟨?_, ?_, ?_, ?_, ?_, ?_⟩
  · intro sha sign validate st chain c h
    rcases addChain_fst ctx sha sign validate st chain with h0 | ⟨r, h0⟩
    · rw [h0] at h; exact Option.noConfusion h
    · rw [h0] at h; cases h; rfl
  · intro backend sign c h
    obtain ⟨r, h0⟩ := getSTH_fst ctx backend sign
    rw [h0] at h; cases h; rfl
  · intro startP endP backend c h
    rcases getEntries_fst ctx startP endP backend with h0 | ⟨r, h0⟩
    · rw [h0] at h; exact Option.noConfusion h
    · rw [h0] at h; cases h; rfl
  · intro hashP tsP backend c h
    rcases getProofByHash_fst ctx hashP tsP backend with h0 | ⟨r, h0⟩
    · rw [h0] at h; exact Option.noConfusion h
    · rw [h0] at h; cases h; rfl
  · intro firstP secondP backend c h
    rcases getSTHConsistency_fst ctx firstP secondP backend with h0 | ⟨r, h0⟩
    · rw [h0] at h; exact Option.noConfusion h
    · rw [h0] at h; cases h; rfl
  · intro liP tsP backend c h
    rcases getEntryAndProof_fst ctx liP tsP backend with h0 | ⟨r, h0⟩
    · rw [h0] at h; exact Option.noConfusion h
    · rw [h0] at h; cases h; rfl

/-- C4 witness: the get-sth RPC of the demo context carries deadline
now + 500 ms, that is 1469185273500 ms. -/
theorem backend_rpc_deadline_witness :
    (mkCall demoCtx (RpcRequest.getLatestSignedLogRoot 66)).ctxDeadline
      = some (demoCtx.nowMillis + demoCtx.deadlineMillis)
    ∧ demoCtx.nowMillis + demoCtx.deadlineMillis = 1469185273500 :=
  ⟨(backend_rpc_deadline demoCtx).2.1 (.error "down") demoSign
      (mkCall demoCtx (.getLatestSignedLogRoot 66)) rfl,
   by decide⟩

/-! Section: Claim C5: get-entries range validation -/

/-- C5: for the parameter pairs (-1,0), (0,-1), (20,10), (3000,-50),
(10,9) and (1000,50000) the get-entries handler returns 400 and issues no
backend RPC; for (10,20) and (10,10) it issues exactly one GetLeavesByIndex
RPC whose index list is the contiguous sequence from start to end. -/
theorem getEntries_range_cases (ctx : LogContext)
    (backend : Except String (TrillianStatusCode × List LogLeaf)) :
    ((getEntries ctx "-1" "0" backend).1 = none
      ∧ httpStatus (getEntries ctx "-1" "0" backend).2 = 400)
    ∧ ((getEntries ctx "0" "-1" backend).1 = none
      ∧ httpStatus (getEntries ctx "0" "-1" backend).2 = 400)
    ∧ ((getEntries ctx "20" "10" backend).1 = none
      ∧ httpStatus (getEntries ctx "20" "10" backend).2 = 400)
    ∧ ((getEntries ctx "3000" "-50" backend).1 = none
      ∧ httpStatus (getEntries ctx "3000" "-50" backend).2 = 400)
    ∧ ((getEntries ctx "10" "9" backend).1 = none
      ∧ httpStatus (getEntries ctx "10" "9" backend).2 = 400)
    ∧ ((getEntries ctx "1000" "50000" backend).1 = none
      ∧ httpStatus (getEntries ctx "1000" "50000" backend).2 = 400)
    ∧ (getEntries ctx "10" "20" backend).1
      = some (mkCall ctx (.getLeavesByIndex ctx.logId
          [10, 11, 12, 13, 14, 15, 16, 17, 18, 19, 20]))
    ∧ (getEntries ctx "10" "10" backend).1
      = some (mkCall ctx (.getLeavesByIndex ctx.logId [10])) :=
  ⟨⟨rfl, rfl⟩, ⟨rfl, rfl⟩, ⟨rfl, rfl⟩, ⟨rfl, rfl⟩, ⟨rfl, rfl⟩, ⟨rfl, rfl⟩, rfl, rfl⟩

/-! Section: Claim C6: proof node hash validation in both proof-returning endpoints -/

/-- C6: for every proof returned by the backend to get-proof-by-hash (the
first proof of the list) or to get-sth-consistency, given valid request
parameters: if any node hash is empty the handler returns 500 "invalid
proof"; otherwise it returns 200 and the audit path of the response is
the ordered list of the proof's node hashes. -/
theorem proof_node_validation (ctx : LogContext) (hashP tsP firstP secondP : String)
    (hb : List Nat) (ts f s : Int) (p : TrillianProof) (rest : List TrillianProof)
    (hph : parseGetProofByHashParams hashP tsP = .ok (hb, ts))
    (hpc : parseConsistencyParams firstP secondP = .ok (f, s)) :
    ((∃ n ∈ p.proofNode, n.nodeHash = []) →
      (getProofByHash ctx hashP tsP (.ok (.OK, p :: rest))).2
          = .error ⟨500, "invalid proof"⟩
      ∧ (getSTHConsistency ctx firstP secondP (.ok (.OK, p))).2
          = .error ⟨500, "invalid proof"⟩)
    ∧ ((∀ n ∈ p.proofNode, n.nodeHash ≠ []) →
      (getProofByHash ctx hashP tsP (.ok (.OK, p :: rest))).2
          = .ok ⟨p.leafIndex, p.proofNode.map TrillianNode.nodeHash⟩
      ∧ (getSTHConsistency ctx firstP secondP (.ok (.OK, p))).2
          = .ok ⟨p.proofNode.map TrillianNode.nodeHash⟩) := by
  constructor
  · intro hex
    constructor
    · simp [getProofByHash, hph, auditPath_none_of_empty p hex]
    · simp [getSTHConsistency, hpc, auditPath_none_of_empty p hex]
  · intro hne
    constructor
    · simp [getProofByHash, hph, auditPath_some_of_nonempty p hne]
    · simp [getSTHConsistency, hpc, auditPath_some_of_nonempty p hne]

/-- C6 witness: the demo proof with non-empty nodes "abcdef", "ghijkl",
"mnopqr" is returned as the audit path by both endpoints, at the test
queries tree_size=7 with hash "YWhhc2g=" and first=10, second=20. -/
theorem proof_node_validation_witness :
    (getProofByHash demoCtx "YWhhc2g=" "7" (.ok (.OK, [demoProof, demoSecondProof]))).2
        = .ok ⟨2, demoProof.proofNode.map TrillianNode.nodeHash⟩
    ∧ (getSTHConsistency demoCtx "10" "20" (.ok (.OK, demoProof))).2
        = .ok ⟨demoProof.proofNode.map TrillianNode.nodeHash⟩ :=
  (proof_node_validation demoCtx "YWhhc2g=" "7" "10" "20"
    [97, 104, 97, 115, 104] 7 10 20 demoProof [demoSecondProof] rfl rfl).2
    (by decide)

/-! Section: Claim C7: get-proof-by-hash parameter validation -/

/-- C7 counterexample: the hash parameter "YWhhc2g=" decodes to the five
bytes of "ahash", not 32 bytes, yet the handler issues the backend RPC and
returns 200, so the claimed must-decode-to-32-bytes validation does not
exist. -/
theorem getProofByHash_hash_length_counterexample :
    base64Decode "YWhhc2g=" = some [97, 104, 97, 115, 104]
    ∧ ([97, 104, 97, 115, 104] : List Nat).length ≠ 32
    ∧ (getProofByHash demoCtx "YWhhc2g=" "7" (.ok (.OK, [demoProof]))).1
        = some (mkCall demoCtx (.getInclusionProofByHash 66 [97, 104, 97, 115, 104] 7))
    ∧ httpStatus (getProofByHash demoCtx "YWhhc2g=" "7" (.ok (.OK, [demoProof]))).2
        = 200 :=
  ⟨rfl, by decide, rfl, rfl⟩

/-- C7 (amended): for every get-proof-by-hash request the hash parameter
must be present, non-empty and base64-decodable (standard or URL-safe
alphabet, any decoded length), and tree_size must parse as a positive
integer; any violation yields 400 before any backend call, and otherwise
the RPC is issued with the decoded hash. -/
theorem getProofByHash_param_validation (ctx : LogContext) (hashP tsP : String)
    (backend : Except String (TrillianStatusCode × List TrillianProof)) :
    (hashP = "" →
      (getProofByHash ctx hashP tsP backend).1 = none
      ∧ httpStatus (getProofByHash ctx hashP tsP backend).2 = 400)
    ∧ (base64Decode hashP = none →
      (getProofByHash ctx hashP tsP backend).1 = none
      ∧ httpStatus (getProofByHash ctx hashP tsP backend).2 = 400)
    ∧ (parseIntStr tsP = none →
      (getProofByHash ctx hashP tsP backend).1 = none
      ∧ httpStatus (getProofByHash ctx hashP tsP backend).2 = 400)
    ∧ (∀ ts, parseIntStr tsP = some ts → ts < 1 →
      (getProofByHash ctx hashP tsP backend).1 = none
      ∧ httpStatus (getProofByHash ctx hashP tsP backend).2 = 400)
    ∧ (∀ hb ts, hashP ≠ "" → base64Decode hashP = some hb →
      parseIntStr tsP = some ts → 1 ≤ ts →
      (getProofByHash ctx hashP tsP backend).1
        = some (mkCall ctx (.getInclusionProofByHash ctx.logId hb ts))) := by
  refine ⟨fun h => ?_, fun hdec => ?_, fun hts => ?_, fun ts hts hlt => ?_,
    fun hb ts hne hdec hts hge => ?_⟩
  · subst h
    exact ⟨by simp [getProofByHash, parseGetProofByHashParams,
        show "".isEmpty = true from rfl],
      by simp [getProofByHash, parseGetProofByHashParams,
        show "".isEmpty = true from rfl, httpStatus]⟩
  · by_cases he : hashP.isEmpty
    · exact ⟨by simp [getProofByHash, parseGetProofByHashParams, he],
        by simp [getProofByHash, parseGetProofByHashParams, he, httpStatus]⟩
    · exact ⟨by simp [getProofByHash, parseGetProofByHashParams, he, hdec],
        by simp [getProofByHash, parseGetProofByHashParams, he, hdec, httpStatus]⟩
  · by_cases he : hashP.isEmpty
    · exact ⟨by simp [getProofByHash, parseGetProofByHashParams, he],
        by simp [getProofByHash, parseGetProofByHashParams, he, httpStatus]⟩
    · cases hdec : base64Decode hashP with
      | none =>
        exact ⟨by simp [getProofByHash, parseGetProofByHashParams, he, hdec],
          by simp [getProofByHash, parseGetProofByHashParams, he, hdec, httpStatus]⟩
      | some hb =>
        exact ⟨by simp [getProofByHash, parseGetProofByHashParams, he, hdec, hts],
          by simp [getProofByHash, parseGetProofByHashParams, he, hdec, hts, httpStatus]⟩
  · by_cases he : hashP.isEmpty
    · exact ⟨by simp [getProofByHash, parseGetProofByHashParams, he],
        by simp [getProofByHash, parseGetProofByHashParams, he, httpStatus]⟩
    · cases hdec : base64Decode hashP with
      | none =>
        exact ⟨by simp [getProofByHash, parseGetProofByHashParams, he, hdec],
          by simp [getProofByHash, parseGetProofByHashParams, he, hdec, httpStatus]⟩
      | some hb =>
        exact ⟨by simp [getProofByHash, parseGetProofByHashParams, he, hdec, hts, hlt],
          by simp [getProofByHash, parseGetProofByHashParams, he, hdec, hts, hlt,
            httpStatus]⟩
  · have he : ¬ hashP.isEmpty = true := fun hh => hne ((String.isEmpty_iff hashP).mp hh)
    simp [getProofByHash, parseGetProofByHashParams, he, hdec, hts,
      Int.not_lt.mpr hge]

/-- C7 witness: the test query tree_size=7 with hash "YWhhc2g=" passes
validation and the RPC carries the decoded bytes of "ahash". -/
theorem getProofByHash_param_validation_witness :
    (getProofByHash demoCtx "YWhhc2g=" "7" (.error "RPCFAIL")).1
      = some (mkCall demoCtx (.getInclusionProofByHash 66 [97, 104, 97, 115, 104] 7)) :=
  (getProofByHash_param_validation demoCtx "YWhhc2g=" "7" (.error "RPCFAIL")).2.2.2.2
    [97, 104, 97, 115, 104] 7 (by decide) rfl rfl (by decide)

/-! Section: Claim C8: only the first backend proof is used -/

/-- C8: for every get-proof-by-hash request with valid parameters where
the backend returns more than one proof, the outcome is that of the first
proof alone: subsequent proofs are ignored, and on success leaf_index and
audit_path come from the first proof. -/
theorem getProofByHash_first_proof (ctx : LogContext) (hashP tsP : String)
    (hb : List Nat) (ts : Int)
    (hparse : parseGetProofByHashParams hashP tsP = .ok (hb, ts))
    (p : TrillianProof) (rest : List TrillianProof) :
    (getProofByHash ctx hashP tsP (.ok (.OK, p :: rest))).2
      = (getProofByHash ctx hashP tsP (.ok (.OK, [p]))).2
    ∧ ((∀ n ∈ p.proofNode, n.nodeHash ≠ []) →
      (getProofByHash ctx hashP tsP (.ok (.OK, p :: rest))).2
        = .ok ⟨p.leafIndex, p.proofNode.map TrillianNode.nodeHash⟩) := by
  constructor
  · simp [getProofByHash, hparse]
  · intro h
    simp [getProofByHash, hparse, auditPath_some_of_nonempty p h]

/-- C8 witness: with the two-proof backend response of the test, the
response equals the single-proof response and uses the first proof's
leaf index 2. -/
theorem getProofByHash_first_proof_witness :
    (getProofByHash demoCtx "YWhhc2g=" "7" (.ok (.OK, [demoProof, demoSecondProof]))).2
      = (getProofByHash demoCtx "YWhhc2g=" "7" (.ok (.OK, [demoProof]))).2
    ∧ (getProofByHash demoCtx "YWhhc2g=" "7" (.ok (.OK, [demoProof, demoSecondProof]))).2
      = .ok ⟨2, demoProof.proofNode.map TrillianNode.nodeHash⟩ :=
  ⟨(getProofByHash_first_proof demoCtx "YWhhc2g=" "7" [97, 104, 97, 115, 104] 7 rfl
      demoProof [demoSecondProof]).1,
   (getProofByHash_first_proof demoCtx "YWhhc2g=" "7" [97, 104, 97, 115, 104] 7 rfl
      demoProof [demoSecondProof]).2 (by decide)⟩

/-! Section: Claim C9: get-sth-consistency parameter validation -/

/-- C9: for every get-sth-consistency request, first and second must both
be present and parse as non-negative integers with first strictly less
than second; a missing parameter, a non-numeric or negative value, equal
values, or first greater than second each yields 400 with no backend
call; a valid pair issues the RPC. -/
theorem getSTHConsistency_param_validation (ctx : LogContext) (firstP secondP : String)
    (backend : Except String (TrillianStatusCode × TrillianProof)) :
    (parseIntStr firstP = none →
      (getSTHConsistency ctx firstP secondP backend).1 = none
      ∧ httpStatus (getSTHConsistency ctx firstP secondP backend).2 = 400)
    ∧ (parseIntStr secondP = none →
      (getSTHConsistency ctx firstP secondP backend).1 = none
      ∧ httpStatus (getSTHConsistency ctx firstP secondP backend).2 = 400)
    ∧ (∀ f s, parseIntStr firstP = some f → parseIntStr secondP = some s →
      (f < 0 ∨ s < 0 ∨ s ≤ f) →
      (getSTHConsistency ctx firstP secondP backend).1 = none
      ∧ httpStatus (getSTHConsistency ctx firstP secondP backend).2 = 400)
    ∧ (∀ f s, parseIntStr firstP = some f → parseIntStr secondP = some s →
      0 ≤ f → f < s →
      (getSTHConsistency ctx firstP secondP backend).1
        = some (mkCall ctx (.getConsistencyProof ctx.logId f s))) := by
  refine ⟨fun hf => ?_, fun hs => ?_, fun f s hf hs hbad => ?_, fun f s hf hs h0 hlt => ?_⟩
  · cases hsnd : parseIntStr secondP with
    | none =>
      exact ⟨by simp [getSTHConsistency, parseConsistencyParams, hf, hsnd],
        by simp [getSTHConsistency, parseConsistencyParams, hf, hsnd, httpStatus]⟩
    | some s =>
      exact ⟨by simp [getSTHConsistency, parseConsistencyParams, hf, hsnd],
        by simp [getSTHConsistency, parseConsistencyParams, hf, hsnd, httpStatus]⟩
  · cases hfst : parseIntStr firstP with
    | none =>
      exact ⟨by simp [getSTHConsistency, parseConsistencyParams, hfst, hs],
        by simp [getSTHConsistency, parseConsistencyParams, hfst, hs, httpStatus]⟩
    | some f =>
      exact ⟨by simp [getSTHConsistency, parseConsistencyParams, hfst, hs],
        by simp [getSTHConsistency, parseConsistencyParams, hfst, hs, httpStatus]⟩
  · by_cases hneg : f < 0 ∨ s < 0
    · exact ⟨by simp [getSTHConsistency, parseConsistencyParams, hf, hs, hneg],
        by simp [getSTHConsistency, parseConsistencyParams, hf, hs, hneg, httpStatus]⟩
    · have hsf : s ≤ f := by
        rcases hbad with h | h | h
        · exact absurd (Or.inl h) hneg
        · exact absurd (Or.inr h) hneg
        · exact h
      exact ⟨by simp [getSTHConsistency, parseConsistencyParams, hf, hs, hneg, hsf],
        by simp [getSTHConsistency, parseConsistencyParams, hf, hs, hneg, hsf,
          httpStatus]⟩
  · have hneg : ¬ (f < 0 ∨ s < 0) := by omega
    have hnsf : ¬ s ≤ f := Int.not_le.mpr hlt
    simp [getSTHConsistency, parseConsistencyParams, hf, hs, hneg, hnsf]

/-- C9 witness: first=10, second=20 passes validation and issues the
consistency RPC with those tree sizes. -/
theorem getSTHConsistency_param_validation_witness :
    (getSTHConsistency demoCtx "10" "20" (.error "RPCFAIL")).1
      = some (mkCall demoCtx (.getConsistencyProof 66 10 20)) :=
  (getSTHConsistency_param_validation demoCtx "10" "20" (.error "RPCFAIL")).2.2.2
    10 20 rfl rfl (by decide) (by decide)

/-! Section: Claim C10: the SCT depends only on the leaf certificate and time -/

/-- C10: two add-chain submissions at the same time-source instant whose
canonical chains share the leaf certificate but differ in the rest of the
chain produce the identical HTTP outcome (hence identical SCT), and queue
leaves with identical serialized MerkleTreeLeaf and leaf hash; the rest of
the chain only enters the queued leaf's extra_data. -/
theorem sct_ignores_intermediates (ctx : LogContext) (sha : List Nat → List Nat)
    (sign : List Nat → Except String (List Nat)) (st : TrillianStatusCode)
    (chain1 chain2 : List (List Nat)) (leafCert : List Nat)
    (rest1 rest2 : List (List Nat)) :
    (addChain ctx sha sign (fun _ => some (leafCert :: rest1)) st chain1).2
      = (addChain ctx sha sign (fun _ => some (leafCert :: rest2)) st chain2).2
    ∧ (∀ sg, sign (sctSignatureInputX509 ctx.nowMillis leafCert) = .ok sg →
      (addChain ctx sha sign (fun _ => some (leafCert :: rest1)) st chain1).1
        = some (mkCall ctx (.queueLeaves ctx.logId
            [⟨0, sha (merkleTreeLeafX509 ctx.nowMillis leafCert),
              merkleTreeLeafX509 ctx.nowMillis leafCert, extraDataX509 rest1, []⟩]))
      ∧ (addChain ctx sha sign (fun _ => some (leafCert :: rest2)) st chain2).1
        = some (mkCall ctx (.queueLeaves ctx.logId
            [⟨0, sha (merkleTreeLeafX509 ctx.nowMillis leafCert),
              merkleTreeLeafX509 ctx.nowMillis leafCert, extraDataX509 rest2, []⟩]))) := by
  constructor
  · cases hs : sign (sctSignatureInputX509 ctx.nowMillis leafCert) with
    | error m => simp [addChain, hs]
    | ok sg => cases st <;> simp [addChain, hs]
  · intro sg hs
    cases st <;> exact ⟨by simp [addChain, hs], by simp [addChain, hs]⟩

/-- C10 witness: two concrete chains sharing the leaf [1, 2, 3] with
different intermediates produce equal outcomes and the first queues the
leaf built from [1, 2, 3] alone with its own extra data. -/
theorem sct_ignores_intermediates_witness :
    (addChain demoCtx demoSha demoSign (fun _ => some [[1, 2, 3], [4, 5, 6]])
        .OK demoChain).2
      = (addChain demoCtx demoSha demoSign (fun _ => some [[1, 2, 3], [7, 8, 9]])
        .OK demoChain).2
    ∧ (addChain demoCtx demoSha demoSign (fun _ => some [[1, 2, 3], [4, 5, 6]])
        .OK demoChain).1
      = some (mkCall demoCtx (.queueLeaves 66
          [⟨0, demoSha (merkleTreeLeafX509 demoCtx.nowMillis [1, 2, 3]),
            merkleTreeLeafX509 demoCtx.nowMillis [1, 2, 3],
            extraDataX509 [[4, 5, 6]], []⟩])) :=
  ⟨(sct_ignores_intermediates demoCtx demoSha demoSign .OK demoChain demoChain
      [1, 2, 3] [[4, 5, 6]] [[7, 8, 9]]).1,
   ((sct_ignores_intermediates demoCtx demoSha demoSign .OK demoChain demoChain
      [1, 2, 3] [[4, 5, 6]] [[7, 8, 9]]).2
      [115, 105, 103, 110, 101, 100] rfl).1⟩
